import Mathlib

/-!
Verification development for a job-vacancy ingestion and reporting system
backed by a two-table relational store (`companies`, `vacancies`).

The store state is embedded shallowly: each table is a list of rows, and the
SERIAL id generators are carried explicitly.  SQL statements executed by the
repository class `DBManager` (src/src/db_manager.py) are translated into pure
functions over this state; the thin `DBSaver` facade (src/src/saver.py) is
translated on top of it.  SQL three-valued `=` on nullable columns is modelled
by `sqlEqOptStr` (a comparison with NULL never matches), `ILIKE` is modelled by
an executable LIKE-pattern matcher over ASCII-case-folded characters, and a
psycopg2 exception escaping a call is modelled by `Except PersistenceError`.
-/

/-- Errors of the underlying store as seen by callers of the repository:
the connection is unreachable, or a statement violates a schema constraint.
Models the `psycopg2.DatabaseError` family. -/
inductive PersistenceError where
  | connectionError : PersistenceError
  | constraintViolation : PersistenceError
deriving DecidableEq, Repr

/-- Row of the `companies` table: `id SERIAL PRIMARY KEY, name VARCHAR(255)
NOT NULL, url VARCHAR(255), description TEXT` (see `DBManager.__create_tables`). -/
structure Company where
  id : Nat
  name : String
  url : Option String
  description : Option String
deriving DecidableEq, Repr

/-- Row of the `vacancies` table: `id SERIAL PRIMARY KEY, company_id INT
REFERENCES companies(id) ON DELETE CASCADE, title VARCHAR(255) NOT NULL,
salary_from INT, salary_to INT, url VARCHAR(255), description TEXT`.
`company_id` carries no NOT NULL constraint, so it is an `Option Nat`. -/
structure Vacancy where
  id : Nat
  company_id : Option Nat
  title : String
  salary_from : Option Int
  salary_to : Option Int
  url : Option String
  description : Option String
deriving DecidableEq, Repr

/-- The store: both tables plus the next value of each SERIAL sequence. -/
structure DB where
  companies : List Company
  vacancies : List Vacancy
  nextCompanyId : Nat
  nextVacancyId : Nat
deriving DecidableEq, Repr

/-- The store right after `DBManager.__create_tables` on a fresh database. -/
def DB.empty : DB := ⟨[], [], 1, 1⟩

/-- Argument record of `DBManager.insert_vacancy` (the `vacancy` dict). -/
structure VacancyInput where
  company_id : Option Nat
  title : String
  salary_from : Option Int
  salary_to : Option Int
  url : Option String
  description : Option String
deriving DecidableEq, Repr

/-- SQL `=` on two nullable text values: NULL on either side never matches. -/
def sqlEqOptStr : Option String → Option String → Bool
  | some a, some b => a == b
  | _, _ => false

/-- Does the nullable foreign key satisfy `REFERENCES companies(id)`?
NULL is accepted (the column has no NOT NULL constraint); a non-null id must
identify an existing `companies` row. -/
def fkOk (db : DB) : Option Nat → Bool
  | none => true
  | some i => db.companies.any (fun c => c.id == i)

namespace DBManager

/-- Embedding of `DBManager.insert_company`.  The Python body runs
`SELECT id FROM companies WHERE name = %s`, returns the found id if any,
otherwise inserts `(name, url, description)` and returns the generated id.
A `try/except Exception: print(e); company_id = None` covers only the
statement body: the cursor acquisition (`self.conn.cursor()`) runs before
the `try`, and the `finally` block runs `self.conn.commit()` outside the
`except`, so with an unreachable store the cursor acquisition or the
commit itself raises and the exception escapes the call — modelled by
`storeFail = some connectionError` producing `Except.error`.  A failure of
the body on a live connection (a constraint violation) is caught and
logged, the `finally` commit succeeds (committing the aborted transaction
acts as a rollback), and the method returns the sentinel `None` normally —
modelled by `storeFail = some constraintViolation` producing
`Except.ok none`.  The result is `(new store state, outcome)`. -/
def insert_company (db : DB) (storeFail : Option PersistenceError)
    (name : String) (url description : Option String) :
    DB × Except PersistenceError (Option Nat) :=
  match storeFail with
  | some PersistenceError.connectionError =>
    (db, Except.error PersistenceError.connectionError)
  | some PersistenceError.constraintViolation => (db, Except.ok none)
  | none =>
    match db.companies.find? (fun c => c.name == name) with
    | some c => (db, Except.ok (some c.id))
    | none =>
      let newId := db.nextCompanyId
      ({ db with
          companies := db.companies ++ [⟨newId, name, url, description⟩],
          nextCompanyId := newId + 1 },
       Except.ok (some newId))

/-- Embedding of `DBManager.insert_vacancy`.  The Python body first runs
`SELECT id FROM companies WHERE url = %s` with the vacancy's url — note:
against the `companies` table — and returns without inserting if a row is
found; otherwise it inserts the vacancy row and commits.  There is no
`try/except`, so a foreign-key violation (a non-null `company_id` that
identifies no `companies` row) escapes as an error. -/
def insert_vacancy (db : DB) (vin : VacancyInput) :
    Except PersistenceError DB :=
  if db.companies.any (fun c => sqlEqOptStr c.url vin.url) then
    Except.ok db
  else if fkOk db vin.company_id then
    Except.ok
      { db with
          vacancies := db.vacancies ++
            [⟨db.nextVacancyId, vin.company_id, vin.title, vin.salary_from,
              vin.salary_to, vin.url, vin.description⟩],
          nextVacancyId := db.nextVacancyId + 1 }
  else
    Except.error PersistenceError.constraintViolation

/-- Embedding of `DBManager.delete_vacancy`:
`DELETE FROM vacancies WHERE id = %s`. -/
def delete_vacancy (db : DB) (vacancy_id : Nat) : DB :=
  { db with vacancies := db.vacancies.filter (fun v => v.id != vacancy_id) }

/-- Embedding of `DBManager.delete_all_vacancies`: `DELETE FROM vacancies`. -/
def delete_all_vacancies (db : DB) : DB :=
  { db with vacancies := [] }

/-- Embedding of `DBManager.delete_company`:
`DELETE FROM companies WHERE id = %s` together with the schema's
`ON DELETE CASCADE`: every vacancy whose `company_id` references a deleted
company row is removed as well. -/
def delete_company (db : DB) (company_id : Nat) : DB :=
  { db with
      companies := db.companies.filter (fun c => c.id != company_id),
      vacancies := db.vacancies.filter (fun v =>
        !(v.company_id == some company_id &&
          db.companies.any (fun c => c.id == company_id))) }

/-- Embedding of `DBManager.delete_all_companies`: `DELETE FROM companies`
with the cascade: every vacancy referencing some company row is removed. -/
def delete_all_companies (db : DB) : DB :=
  { db with
      companies := [],
      vacancies := db.vacancies.filter (fun v =>
        !(db.companies.any (fun c => v.company_id == some c.id))) }

/-- Result row of `DBManager.get_all_vacancies` and
`DBManager.get_vacancies_with_higher_salary`: the selected columns
`companies.name AS company_name, vacancies.title, vacancies.salary_from,
vacancies.salary_to, vacancies.url`. -/
structure VacRow where
  company_name : String
  title : String
  salary_from : Option Int
  salary_to : Option Int
  url : Option String
deriving DecidableEq, Repr

/-- Result row of `DBManager.get_vacancies_with_keyword`: the selected
columns `companies.name AS company_name, vacancies.title, vacancies.url`. -/
structure KwRow where
  company_name : String
  title : String
  url : Option String
deriving DecidableEq, Repr

/-- Rows that one vacancy contributes to the inner join
`vacancies JOIN companies ON vacancies.company_id = companies.id`,
projected to the five columns of `get_all_vacancies`. -/
def vacRowsFor (db : DB) (v : Vacancy) : List VacRow :=
  (db.companies.filter (fun c => v.company_id == some c.id)).map
    (fun c => ⟨c.name, v.title, v.salary_from, v.salary_to, v.url⟩)

/-- Rows that one vacancy contributes to the same inner join projected to
the three columns of `get_vacancies_with_keyword`. -/
def kwRowsFor (db : DB) (v : Vacancy) : List KwRow :=
  (db.companies.filter (fun c => v.company_id == some c.id)).map
    (fun c => ⟨c.name, v.title, v.url⟩)

/-- Midpoint salary `(salary_from + salary_to) / 2.0` of one vacancy row as
computed inside the SQL of `get_avg_salary` and
`get_vacancies_with_higher_salary`: NULL (here `none`) as soon as either
bound is NULL, by SQL null propagation. -/
def midpoint? (v : Vacancy) : Option ℚ :=
  match v.salary_from, v.salary_to with
  | some a, some b => some ((a + b : ℚ) / 2)
  | _, _ => none

/-- Embedding of `DBManager.get_avg_salary`:
`SELECT AVG((salary_from + salary_to) / 2.0) FROM vacancies WHERE
salary_from IS NOT NULL AND salary_to IS NOT NULL` — SQL `AVG` over zero
rows is NULL, which `fetchone()[0]` hands back as `None`. -/
def get_avg_salary (db : DB) : Option ℚ :=
  let ms := db.vacancies.filterMap midpoint?
  if ms.isEmpty then none else some (ms.sum / (ms.length : ℚ))

/-- Embedding of `DBManager.get_all_vacancies`: inner join of `vacancies`
with `companies` on `company_id`, one output row per matching pair. -/
def get_all_vacancies (db : DB) : List VacRow :=
  db.vacancies.flatMap (vacRowsFor db)

/-- Embedding of `DBManager.get_vacancies_with_higher_salary`: compute
`get_avg_salary` first, return `[]` when it is NULL (the Python early
return), otherwise the joined rows whose midpoint strictly exceeds it;
a row with a NULL bound has NULL midpoint and `NULL > avg` does not
select, which the `none` branch of the match reflects. -/
def get_vacancies_with_higher_salary (db : DB) : List VacRow :=
  match get_avg_salary db with
  | none => []
  | some avg =>
    (db.vacancies.filter (fun v =>
        match midpoint? v with
        | some m => decide (avg < m)
        | none => false)).flatMap (vacRowsFor db)

/-- Embedding of `DBManager.get_companies_and_vacancies_count`:
`SELECT companies.name, COUNT(vacancies.id) FROM companies LEFT JOIN
vacancies ON companies.id = vacancies.company_id GROUP BY companies.name`.
One output row per distinct company name; its count is the number of
joined pairs in the group, i.e. the sum over the companies bearing that
name of the number of vacancies referencing each (a company with no
vacancies contributes the single NULL-extended row, which `COUNT` on
`vacancies.id` does not count).  The SQL carries no ORDER BY; the
embedding lists the groups in the order of `List.dedup` of the names. -/
def get_companies_and_vacancies_count (db : DB) : List (String × Nat) :=
  ((db.companies.map (fun c => c.name)).dedup).map (fun n =>
    (n, ((db.companies.filter (fun c => c.name == n)).map (fun c =>
          db.vacancies.countP (fun v => v.company_id == some c.id))).sum))

end DBManager

/-- ASCII case-folding table used to model the case-insensitivity of
`ILIKE`: each uppercase Latin letter maps to its lowercase form. -/
def upperLowerTable : List (Char × Char) :=
  [('A', 'a'), ('B', 'b'), ('C', 'c'), ('D', 'd'), ('E', 'e'), ('F', 'f'),
   ('G', 'g'), ('H', 'h'), ('I', 'i'), ('J', 'j'), ('K', 'k'), ('L', 'l'),
   ('M', 'm'), ('N', 'n'), ('O', 'o'), ('P', 'p'), ('Q', 'q'), ('R', 'r'),
   ('S', 's'), ('T', 't'), ('U', 'u'), ('V', 'v'), ('W', 'w'), ('X', 'x'),
   ('Y', 'y'), ('Z', 'z')]

/-- Lowercase one character under the ASCII folding of `upperLowerTable`;
characters outside A–Z are unchanged. -/
def lowerChar (c : Char) : Char :=
  ((upperLowerTable.find? (fun p => p.1 == c)).map (fun p => p.2)).getD c

/-- SQL LIKE pattern matching over character lists: `%` matches any
sequence, `_` matches any single character, a backslash escapes the next
pattern character, and every other character matches itself.  A pattern
ending in a bare backslash (an error in the DBMS) matches nothing. -/
def likeMatch : List Char → List Char → Bool
  | [], s => s.isEmpty
  | '%' :: p, s =>
    likeMatch p s ||
      (match s with
       | [] => false
       | _ :: s2 => likeMatch ('%' :: p) s2)
  | '_' :: p, s =>
    (match s with
     | [] => false
     | _ :: s2 => likeMatch p s2)
  | '\\' :: p, s =>
    (match p, s with
     | d :: p2, e :: s2 => e == d && likeMatch p2 s2
     | _, _ => false)
  | c :: p, s =>
    (match s with
     | [] => false
     | e :: s2 => e == c && likeMatch p s2)
termination_by p s => (p.length, s.length)

/-- Postgres `ILIKE`: LIKE matching after case-folding both the data and
the pattern. -/
def pgIlike (s pat : String) : Bool :=
  likeMatch (pat.data.map lowerChar) (s.data.map lowerChar)

namespace DBManager

/-- Embedding of `DBManager.get_vacancies_with_keyword`: the inner join of
`vacancies` with `companies` restricted by
`vacancies.title ILIKE %s` with parameter `'%' + keyword + '%'` — the
keyword is spliced into the LIKE pattern unescaped. -/
def get_vacancies_with_keyword (db : DB) (keyword : String) : List KwRow :=
  (db.vacancies.filter (fun v =>
      pgIlike v.title ("%" ++ keyword ++ "%"))).flatMap (kwRowsFor db)

end DBManager

namespace DBSaver

/-- Python truthiness of the `Optional[int]` argument `record_id`:
`None` and `0` are falsy, every other integer is truthy. -/
def truthy : Option Nat → Bool
  | none => false
  | some n => n != 0

/-- Embedding of `DBSaver.delete_vacancy`: `if record_id:` delete the one
vacancy, `else` delete all vacancies. -/
def delete_vacancy (db : DB) (record_id : Option Nat) : DB :=
  if truthy record_id then DBManager.delete_vacancy db (record_id.getD 0)
  else DBManager.delete_all_vacancies db

/-- Embedding of `DBSaver.delete_company`: `if record_id:` delete the one
company, `else` delete all companies. -/
def delete_company (db : DB) (record_id : Option Nat) : DB :=
  if truthy record_id then DBManager.delete_company db (record_id.getD 0)
  else DBManager.delete_all_companies db

end DBSaver

/-- The list of characters contains no LIKE pattern metacharacter:
no `%`, no `_`, and no escaping backslash. -/
def NoMeta (l : List Char) : Prop := ∀ c ∈ l, c ≠ '%' ∧ c ≠ '_' ∧ c ≠ '\\'

instance (l : List Char) : Decidable (NoMeta l) := by
  unfold NoMeta; infer_instance

/-- Store with one company and one vacancy titled "xyz", used to refute
the literal-substring reading of the keyword search. -/
def dbC7 : DB := ⟨[⟨1, "Acme", none, none⟩],
  [⟨1, some 1, "xyz", none, none, some "u", none⟩], 2, 2⟩

/-- Store holding one company inserted the way the ingestion loop does it:
`EnsureCompany` is called with `url = None`, so the company row's url is
NULL. -/
def dbC1 : DB := ⟨[⟨1, "Acme", none, none⟩], [], 2, 1⟩

/-- Store with two titled vacancies, one matching the keyword search on
`ENGineer` case-insensitively, one not. -/
def dbW7 : DB := ⟨[⟨1, "Acme", none, none⟩],
  [⟨1, some 1, "Senior Engineer", none, none, some "u1", none⟩,
   ⟨2, some 1, "Manager", none, none, some "u2", none⟩], 2, 3⟩

/-- One normalized vacancy record, with the url that serves as its dedup
key. -/
def vinC1 : VacancyInput :=
  ⟨some 1, "Engineer", some 100000, some 150000, some "https://hh.ru/vacancy/1", none⟩

/-- Store with one unrelated company, used to witness idempotence of the
company upsert. -/
def dbW2 : DB := ⟨[⟨1, "Globex", none, none⟩], [], 2, 1⟩

/-- Spec-side description of the rows `AverageSalary` may draw from: the
vacancies where BOTH salary bounds are non-null. -/
def qualifying (db : DB) : List Vacancy :=
  db.vacancies.filter (fun v => v.salary_from.isSome && v.salary_to.isSome)

/-- Spec-side midpoint `(salary_from + salary_to) / 2` of a vacancy whose
bounds are known non-null (`getD` only discharges the `Option`). -/
def midValue (v : Vacancy) : ℚ :=
  ((v.salary_from.getD 0 : ℚ) + (v.salary_to.getD 0 : ℚ)) / 2

/-- Store with one fully-priced vacancy (midpoint 2000) and one vacancy
with a null lower bound, used to witness the average-salary theorem. -/
def dbW3 : DB := ⟨[⟨1, "Acme", none, none⟩],
  [⟨1, some 1, "A", some 1000, some 3000, some "u1", none⟩,
   ⟨2, some 1, "B", none, some 5000, some "u2", none⟩], 2, 3⟩

/-- Store realising the spec's test vector: three vacancies with midpoints
1000, 2000 and 3000, so the average is 2000 and only the third lies
strictly above it. -/
def dbW4 : DB := ⟨[⟨1, "Acme", none, none⟩],
  [⟨1, some 1, "A", some 500, some 1500, some "u1", none⟩,
   ⟨2, some 1, "B", some 1000, some 3000, some "u2", none⟩,
   ⟨3, some 1, "C", some 2000, some 4000, some "u3", none⟩], 2, 4⟩

/-- Vacancy record with an absent (`None`) `company_id`. -/
def vinC5 : VacancyInput := ⟨none, "Orphan", none, none, some "https://hh.ru/vacancy/9", none⟩

/-- Store with a single company of id 1, so id 99 is dangling. -/
def dbW5 : DB := ⟨[⟨1, "Acme", none, none⟩], [], 2, 1⟩

/-- Vacancy record referencing the non-existent company id 99. -/
def vinW5 : VacancyInput := ⟨some 99, "Dangling", none, none, some "https://hh.ru/vacancy/7", none⟩

/-- Store with two companies owning one vacancy each, used to witness the
cascade of `delete_company`. -/
def dbW8 : DB := ⟨[⟨1, "Acme", none, none⟩, ⟨2, "Beta", none, none⟩],
  [⟨1, some 1, "A", none, none, some "u1", none⟩,
   ⟨2, some 2, "B", none, none, some "u2", none⟩], 3, 3⟩

/-- Store with two distinct companies that share the name "Acme" (the
schema has no uniqueness constraint on `name`), one of them owning the
only vacancy. -/
def dbC9 : DB := ⟨[⟨1, "Acme", none, none⟩, ⟨2, "Acme", none, none⟩],
  [⟨1, some 1, "A", none, none, some "u1", none⟩], 3, 2⟩

/-- Store with two distinctly named companies, one vacancy, used to
witness the counts query. -/
def dbW9 : DB := ⟨[⟨1, "Acme", none, none⟩, ⟨2, "Beta", none, none⟩],
  [⟨1, some 1, "A", none, none, some "u1", none⟩], 3, 2⟩

/-- Store with two vacancies (ids 1 and 5) and one company, used to
witness the saver's truthiness dispatch. -/
def dbW10 : DB := ⟨[⟨1, "Acme", none, none⟩],
  [⟨1, some 1, "A", none, none, some "u1", none⟩,
   ⟨5, some 1, "B", none, none, some "u5", none⟩], 2, 6⟩

/-- The pattern `%` matches every string. -/
theorem likeMatch_pct_all (s : List Char) : likeMatch ['%'] s = true := by
  induction s with
  | nil => rw [likeMatch.eq_2, likeMatch.eq_1]; rfl
  | cons c s2 ih => rw [likeMatch.eq_3, ih]; simp

/-- A pattern starting with `%` matches a string iff the rest of the
pattern matches some suffix of it. -/
theorem likeMatch_pct_iff (p s : List Char) :
    likeMatch ('%' :: p) s = true ↔ ∃ t, t <:+ s ∧ likeMatch p t = true := by
  induction s with
  | nil =>
    rw [likeMatch.eq_2]
    simp [List.suffix_nil]
  | cons c s2 ih =>
    rw [likeMatch.eq_3, Bool.or_eq_true, ih]
    constructor
    · rintro (h | ⟨t, ht, hmt⟩)
      · exact ⟨c :: s2, List.suffix_rfl, h⟩
      · exact ⟨t, ht.trans (List.suffix_cons c s2), hmt⟩
    · rintro ⟨t, ht, hmt⟩
      rcases List.suffix_cons_iff.mp ht with h1 | h2
      · subst h1; exact Or.inl hmt
      · exact Or.inr ⟨t, h2, hmt⟩

/-- A metacharacter-free word followed by `%` matches a string iff the
word is a prefix of it. -/
theorem likeMatch_lit_pct (kw : List Char) (hm : NoMeta kw) (s : List Char) :
    likeMatch (kw ++ ['%']) s = true ↔ kw <+: s := by
  induction kw generalizing s with
  | nil =>
    simpa [ List.nil_prefix] using likeMatch_pct_all s
  | cons c kw2 ih =>
    have hc := hm c (List.mem_cons_self c kw2)
    cases s with
    | nil =>
      rw [List.cons_append,
        likeMatch.eq_8 c _ (fun h => hc.1 h) (fun h => hc.2.1 h) (fun h => hc.2.2 h)]
      simp [ List.prefix_nil]
    | cons e s2 =>
      rw [List.cons_append,
        likeMatch.eq_9 c _ e s2 (fun h => hc.1 h) (fun h => hc.2.1 h) (fun h => hc.2.2 h),
        Bool.and_eq_true, beq_iff_eq,
        ih (fun x hx => hm x (List.mem_cons_of_mem c hx)),
        List.cons_prefix_cons]
      constructor
      · rintro ⟨h1, h2⟩; exact ⟨h1.symm, h2⟩
      · rintro ⟨h1, h2⟩; exact ⟨h1.symm, h2⟩

/-- The pattern `%kw%` for a metacharacter-free `kw` matches a string iff
`kw` occurs in it as a contiguous infix. -/
theorem likeMatch_contains (kw : List Char) (hm : NoMeta kw) (s : List Char) :
    likeMatch ('%' :: (kw ++ ['%'])) s = true ↔ kw <:+: s := by
  rw [likeMatch_pct_iff, List.infix_iff_prefix_suffix]
  constructor
  · rintro ⟨t, ht, hmt⟩; exact ⟨t, (likeMatch_lit_pct kw hm t).mp hmt, ht⟩
  · rintro ⟨t, h1, h2⟩; exact ⟨t, h2, (likeMatch_lit_pct kw hm t).mpr h1⟩

/-- Case folding neither creates nor destroys LIKE metacharacters. -/
theorem lowerChar_meta (c : Char) :
    (lowerChar c = '%' ↔ c = '%') ∧ (lowerChar c = '_' ↔ c = '_') ∧
      (lowerChar c = '\\' ↔ c = '\\') := by
  unfold lowerChar
  cases hf : upperLowerTable.find? (fun p => p.1 == c) with
  | none => simp
  | some p =>
    have hp : p ∈ upperLowerTable := List.mem_of_find?_eq_some hf
    have hq := List.find?_some hf
    have h1 : ∀ q ∈ upperLowerTable, q.1 ≠ '%' ∧ q.1 ≠ '_' ∧ q.1 ≠ '\\' := by decide
    have h2 : ∀ q ∈ upperLowerTable, q.2 ≠ '%' ∧ q.2 ≠ '_' ∧ q.2 ≠ '\\' := by decide
    have hc : p.1 = c := by simpa using hq
    subst hc
    simp [(h1 p hp).1, (h1 p hp).2.1, (h1 p hp).2.2,
      (h2 p hp).1, (h2 p hp).2.1, (h2 p hp).2.2]

/-- Case folding preserves metacharacter-freeness of a keyword. -/
theorem noMeta_map_lower (l : List Char) (h : NoMeta l) : NoMeta (l.map lowerChar) := by
  intro c hc
  rcases List.mem_map.mp hc with ⟨a, ha, rfl⟩
  have h3 := lowerChar_meta a
  have h4 := h a ha
  exact ⟨fun he => h4.1 (h3.1.mp he), fun he => h4.2.1 (h3.2.1.mp he),
    fun he => h4.2.2 (h3.2.2.mp he)⟩

/-- Concatenating strings concatenates their character lists. -/
theorem string_data_append (a b : String) : (a ++ b).data = a.data ++ b.data := by
  cases a; cases b; rfl

/-- A boolean equals the decision of any proposition it is equivalent
to. -/
theorem bool_eq_decide {P : Prop} [Decidable P] {b : Bool} (h : b = true ↔ P) :
    b = decide P := by
  by_cases hp : P
  · simp [hp, h.mpr hp]
  · have hb : b ≠ true := fun ht => hp (h.mp ht)
    simp [hp, Bool.eq_false_iff.mpr hb]

/-- An `ILIKE` against the pattern `%kw%` with a metacharacter-free
keyword is exactly a case-insensitive substring test. -/
theorem pgIlike_contains (t kw : String) (hm : NoMeta kw.data) :
    pgIlike t ("%" ++ kw ++ "%") = true ↔
      (kw.data.map lowerChar) <:+: (t.data.map lowerChar) := by
  unfold pgIlike
  have hd : ("%" ++ kw ++ "%").data = '%' :: (kw.data ++ ['%']) := by
    rw [string_data_append, string_data_append]; rfl
  rw [hd, List.map_cons, List.map_append]
  have hpc : lowerChar '%' = '%' := by decide
  have hps : List.map lowerChar ['%'] = ['%'] := by decide
  rw [hpc, hps]
  exact likeMatch_contains _ (noMeta_map_lower _ hm) _

/-- Claim C7, amended.  The keyword is spliced unescaped into the LIKE
pattern `%keyword%` of an `ILIKE`, so `%`, `_` and `\` inside the keyword
act as pattern metacharacters; for a keyword containing none of them the
search is exactly a case-insensitive literal substring match on `title`
(each joined row kept iff the folded keyword is an infix of the folded
title), and the empty keyword matches every vacancy. -/
theorem get_vacancies_with_keyword_substring (db : DB) (kw : String)
    (hm : NoMeta kw.data) :
    DBManager.get_vacancies_with_keyword db kw =
      (db.vacancies.filter (fun v =>
        decide ((kw.data.map lowerChar) <:+: (v.title.data.map lowerChar)))).flatMap
        (DBManager.kwRowsFor db) ∧
    DBManager.get_vacancies_with_keyword db "" =
      db.vacancies.flatMap (DBManager.kwRowsFor db) := by
  constructor
  · unfold DBManager.get_vacancies_with_keyword
    congr 1
    apply List.filter_congr
    intro v _
    exact bool_eq_decide (pgIlike_contains v.title kw hm)
  · unfold DBManager.get_vacancies_with_keyword
    have hall : ∀ v : Vacancy, pgIlike v.title ("%" ++ "" ++ "%") = true := by
      intro v
      unfold pgIlike
      have hd : (("%" ++ "" ++ "%").data.map lowerChar) = ['%', '%'] := by decide
      rw [hd]
      exact (likeMatch_pct_iff ['%'] _).mpr ⟨_, List.suffix_rfl, likeMatch_pct_all _⟩
  -- filter with an always-true predicate is the identity
    rw [List.filter_congr (fun v _ => hall v)]
    simp

/-- Claim C7, counterexample to the claim as stated: the keyword `x_z` is
not a literal substring of the title `xyz` (even case-folded), yet the
search returns that vacancy, because `_` acts as a LIKE wildcard. -/
theorem keyword_metachar_counterexample :
    DBManager.get_vacancies_with_keyword dbC7 "x_z" = [⟨"Acme", "xyz", some "u"⟩] ∧
      ¬ (("x_z".data.map lowerChar) <:+: ("xyz".data.map lowerChar)) := by
  constructor
  · simp [DBManager.get_vacancies_with_keyword, dbC7, pgIlike, likeMatch,
      lowerChar, upperLowerTable, DBManager.kwRowsFor]
  · decide

/-- Claim C7, witness: the amended theorem applied to a concrete store and
the keyword `ENGineer`, whose hypothesis (no metacharacters) holds. -/
theorem get_vacancies_with_keyword_substring_witness :
    NoMeta "ENGineer".data ∧
      (DBManager.get_vacancies_with_keyword dbW7 "ENGineer" =
        (dbW7.vacancies.filter (fun v =>
          decide (("ENGineer".data.map lowerChar) <:+:
            (v.title.data.map lowerChar)))).flatMap (DBManager.kwRowsFor dbW7) ∧
      DBManager.get_vacancies_with_keyword dbW7 "" =
        dbW7.vacancies.flatMap (DBManager.kwRowsFor dbW7)) :=
  ⟨by decide, get_vacancies_with_keyword_substring dbW7 "ENGineer" (by decide)⟩

/-- Claim C1, evaluated at the failing input.  The dedup lookup of
`insert_vacancy` reads the `companies` table, whose only row (stored by
the ingestion path with a NULL url) never matches the vacancy's url, so
ingesting the same normalized vacancy record twice inserts twice: the
store ends up with two `vacancies` rows carrying the dedup-key url,
contradicting the claimed "exactly one Vacancy row". -/
theorem insert_vacancy_no_dedup_eval :
    (DBManager.insert_vacancy dbC1 vinC1 >>= fun db2 =>
        DBManager.insert_vacancy db2 vinC1).map
      (fun db3 => (db3.vacancies.filter
        (fun v => v.url == some "https://hh.ru/vacancy/1")).length) =
      Except.ok 2 := rfl

/-- Unfolding of the company upsert when a row with the name exists: the
store is unchanged and the found id is returned. -/
theorem insert_company_found (db : DB) (n : String) (u d : Option String)
    (c0 : Company) (hf : db.companies.find? (fun c => c.name == n) = some c0) :
    DBManager.insert_company db none n u d = (db, Except.ok (some c0.id)) := by
  unfold DBManager.insert_company
  rw [hf]

/-- Unfolding of the company upsert when no row with the name exists: a
fresh row is appended and the generated id returned. -/
theorem insert_company_new (db : DB) (n : String) (u d : Option String)
    (hf : db.companies.find? (fun c => c.name == n) = none) :
    DBManager.insert_company db none n u d =
      ({ db with
          companies := db.companies ++ [⟨db.nextCompanyId, n, u, d⟩],
          nextCompanyId := db.nextCompanyId + 1 },
       Except.ok (some db.nextCompanyId)) := by
  unfold DBManager.insert_company
  rw [hf]

/-- Claim C2.  If the store starts with at most one row of the given name
(the documented invariant), two `EnsureCompany` calls with that name and
arbitrary url/description arguments return the same id, the second call
leaves the store exactly as the first left it (in particular the existing
row's url and description are untouched), and exactly one row with that
name remains. -/
theorem insert_company_idempotent (db : DB) (n : String)
    (u1 d1 u2 d2 : Option String)
    (hcount : (db.companies.filter (fun c => c.name == n)).length ≤ 1) :
    ∃ i : Nat,
      (DBManager.insert_company db none n u1 d1).2 = Except.ok (some i) ∧
      (DBManager.insert_company (DBManager.insert_company db none n u1 d1).1
          none n u2 d2).2 = Except.ok (some i) ∧
      (DBManager.insert_company (DBManager.insert_company db none n u1 d1).1
          none n u2 d2).1 = (DBManager.insert_company db none n u1 d1).1 ∧
      (((DBManager.insert_company (DBManager.insert_company db none n u1 d1).1
          none n u2 d2).1).companies.filter (fun c => c.name == n)).length = 1 := by
  cases hf : db.companies.find? (fun c => c.name == n) with
  | some c0 =>
    have h1 := insert_company_found db n u1 d1 c0 hf
    have h2 := insert_company_found db n u2 d2 c0 hf
    have hc1 : c0 ∈ db.companies := List.mem_of_find?_eq_some hf
    have hc2 := List.find?_some hf
    have hmem : c0 ∈ db.companies.filter (fun c => c.name == n) :=
      List.mem_filter.mpr ⟨hc1, hc2⟩
    have hge := List.length_pos_of_mem hmem
    refine ⟨c0.id, ?_, ?_, ?_, ?_⟩
    · simp only [h1]
    · simp only [h1, h2]
    · simp only [h1, h2]
    · simp only [h1, h2]
      omega
  | none =>
    have h1 := insert_company_new db n u1 d1 hf
    have hnil : db.companies.filter (fun c => c.name == n) = [] :=
      List.filter_eq_nil_iff.mpr (fun a ha hpa => List.find?_eq_none.mp hf a ha hpa)
    have hf2 : (db.companies ++ [(⟨db.nextCompanyId, n, u1, d1⟩ : Company)]).find?
        (fun c => c.name == n) = some ⟨db.nextCompanyId, n, u1, d1⟩ := by
      rw [List.find?_append, hf]
      simp
    have h2 := insert_company_found
      { db with
          companies := db.companies ++ [(⟨db.nextCompanyId, n, u1, d1⟩ : Company)],
          nextCompanyId := db.nextCompanyId + 1 }
      n u2 d2 ⟨db.nextCompanyId, n, u1, d1⟩ hf2
    refine ⟨db.nextCompanyId, ?_, ?_, ?_, ?_⟩
    · simp only [h1]
    · simp only [h1, h2]
    · simp only [h1, h2]
    · simp only [h1, h2]
      rw [List.filter_append, hnil]
      simp

/-- Claim C2, witness: the idempotence theorem applied to a concrete
store, inserting "Acme" twice with different urls and descriptions. -/
theorem insert_company_idempotent_witness :
    ((dbW2.companies.filter (fun c => c.name == "Acme")).length ≤ 1) ∧
      (∃ i : Nat,
        (DBManager.insert_company dbW2 none "Acme" (some "https://a") (some "d1")).2 =
          Except.ok (some i) ∧
        (DBManager.insert_company
            (DBManager.insert_company dbW2 none "Acme" (some "https://a") (some "d1")).1
            none "Acme" (some "https://b") (some "d2")).2 = Except.ok (some i) ∧
        (DBManager.insert_company
            (DBManager.insert_company dbW2 none "Acme" (some "https://a") (some "d1")).1
            none "Acme" (some "https://b") (some "d2")).1 =
          (DBManager.insert_company dbW2 none "Acme" (some "https://a") (some "d1")).1 ∧
        (((DBManager.insert_company
            (DBManager.insert_company dbW2 none "Acme" (some "https://a") (some "d1")).1
            none "Acme" (some "https://b") (some "d2")).1).companies.filter
          (fun c => c.name == "Acme")).length = 1) :=
  ⟨by decide, insert_company_idempotent dbW2 "Acme" (some "https://a") (some "d1")
    (some "https://b") (some "d2") (by decide)⟩

/-- The rows whose midpoint the average sees are exactly the rows with
both bounds non-null, each contributing its midpoint. -/
theorem filterMap_midpoint (l : List Vacancy) :
    l.filterMap DBManager.midpoint? =
      (l.filter (fun v => v.salary_from.isSome && v.salary_to.isSome)).map midValue := by
  induction l with
  | nil => rfl
  | cons v l ih =>
    cases ha : v.salary_from with
    | none =>
      simp [List.filterMap_cons, List.filter_cons, DBManager.midpoint?, ha, ih]
    | some a =>
      cases hb : v.salary_to with
      | none =>
        simp [List.filterMap_cons, List.filter_cons, DBManager.midpoint?, ha, hb, ih]
      | some b =>
        simp [List.filterMap_cons, List.filter_cons, DBManager.midpoint?, ha, hb, ih,
          midValue]

/-- Let-free unfolding of `get_avg_salary`. -/
theorem get_avg_salary_eq (db : DB) :
    DBManager.get_avg_salary db =
      (if (db.vacancies.filterMap DBManager.midpoint?).isEmpty then none
       else some ((db.vacancies.filterMap DBManager.midpoint?).sum /
         ((db.vacancies.filterMap DBManager.midpoint?).length : ℚ))) := rfl

/-- Claim C3.  `AverageSalary` returns no value exactly when no vacancy
has both bounds non-null; appending a vacancy with a null bound never
changes the result; and any returned value is the arithmetic mean of
`(salary_from + salary_to) / 2` over precisely the both-bounds-non-null
rows. -/
theorem get_avg_salary_spec (db : DB) :
    (DBManager.get_avg_salary db = none ↔ qualifying db = []) ∧
    (∀ v : Vacancy, (v.salary_from = none ∨ v.salary_to = none) →
      DBManager.get_avg_salary { db with vacancies := db.vacancies ++ [v] } =
        DBManager.get_avg_salary db) ∧
    (∀ q : ℚ, DBManager.get_avg_salary db = some q →
      qualifying db ≠ [] ∧
        q = ((qualifying db).map midValue).sum / ((qualifying db).length : ℚ)) := by
  refine ⟨?_, ?_, ?_⟩
  · rw [get_avg_salary_eq, filterMap_midpoint]
    by_cases hq : db.vacancies.filter
        (fun v => v.salary_from.isSome && v.salary_to.isSome) = []
    · rw [hq]
      simp [qualifying, hq]
    · rw [if_neg (by simp [hq])]
      simp [qualifying, hq]
  · intro v hv
    rw [get_avg_salary_eq, get_avg_salary_eq]
    have hmv : DBManager.midpoint? v = none := by
      rcases hv with h | h <;> simp [DBManager.midpoint?, h]
    simp [List.filterMap_append, hmv]
  · intro q hq
    rw [get_avg_salary_eq, filterMap_midpoint] at hq
    by_cases hnil : db.vacancies.filter
        (fun v => v.salary_from.isSome && v.salary_to.isSome) = []
    · rw [hnil] at hq
      simp at hq
    · rw [if_neg (by simp [hnil])] at hq
      refine ⟨by simpa [qualifying] using hnil, ?_⟩
      have := Option.some.inj hq
      rw [← this]
      simp [qualifying]

/-- Claim C3, witness: on a store whose only qualifying vacancy has
bounds 1000 and 3000 (plus one excluded half-priced row), the average is
2000 and the theorem's characterisation holds at it. -/
theorem get_avg_salary_spec_witness :
    DBManager.get_avg_salary dbW3 = some 2000 ∧
      (qualifying dbW3 ≠ [] ∧
        (2000 : ℚ) =
          ((qualifying dbW3).map midValue).sum / ((qualifying dbW3).length : ℚ)) := by
  have havg : DBManager.get_avg_salary dbW3 = some 2000 := by
    rw [get_avg_salary_eq]
    norm_num [dbW3, DBManager.midpoint?, List.filterMap_cons]
  exact ⟨havg, (get_avg_salary_spec dbW3).2.2 2000 havg⟩

/-- Claim C4.  The above-average query computes `AverageSalary` first and
returns the empty sequence when it is absent; otherwise it returns the
full-listing join of exactly the vacancies whose midpoint strictly
exceeds that average, and the selecting predicate is false on every
vacancy with a null bound (such rows are excluded, they do not fail the
query). -/
theorem get_vacancies_with_higher_salary_spec (db : DB) :
    (DBManager.get_avg_salary db = none →
      DBManager.get_vacancies_with_higher_salary db = []) ∧
    (∀ avg : ℚ, DBManager.get_avg_salary db = some avg →
      DBManager.get_vacancies_with_higher_salary db =
        DBManager.get_all_vacancies
          { db with
              vacancies := db.vacancies.filter (fun v =>
                match DBManager.midpoint? v with
                | some m => decide (avg < m)
                | none => false) } ∧
      ∀ v : Vacancy, (v.salary_from = none ∨ v.salary_to = none) →
        (match DBManager.midpoint? v with
         | some m => decide (avg < m)
         | none => false) = false) := by
  constructor
  · intro h
    unfold DBManager.get_vacancies_with_higher_salary
    rw [h]
  · intro avg h
    constructor
    · unfold DBManager.get_vacancies_with_higher_salary DBManager.get_all_vacancies
      rw [h]
      rfl
    · intro v hv
      have hmv : DBManager.midpoint? v = none := by
        rcases hv with h1 | h1 <;> simp [DBManager.midpoint?, h1]
      rw [hmv]

/-- Claim C4, witness: on the midpoints 1000/2000/3000 store the average
is 2000 and the theorem applies; on the empty store the average is absent
and the result is the empty sequence. -/
theorem get_vacancies_with_higher_salary_spec_witness :
    (DBManager.get_avg_salary dbW4 = some 2000 ∧
      (DBManager.get_vacancies_with_higher_salary dbW4 =
        DBManager.get_all_vacancies
          { dbW4 with
              vacancies := dbW4.vacancies.filter (fun v =>
                match DBManager.midpoint? v with
                | some m => decide ((2000 : ℚ) < m)
                | none => false) } ∧
      ∀ v : Vacancy, (v.salary_from = none ∨ v.salary_to = none) →
        (match DBManager.midpoint? v with
         | some m => decide ((2000 : ℚ) < m)
         | none => false) = false)) ∧
    (DBManager.get_avg_salary DB.empty = none ∧
      DBManager.get_vacancies_with_higher_salary DB.empty = []) := by
  have havg : DBManager.get_avg_salary dbW4 = some 2000 := by
    rw [get_avg_salary_eq]
    norm_num [dbW4, DBManager.midpoint?, List.filterMap_cons]
  have hnone : DBManager.get_avg_salary DB.empty = none := rfl
  exact ⟨⟨havg, (get_vacancies_with_higher_salary_spec dbW4).2 2000 havg⟩,
    hnone, (get_vacancies_with_higher_salary_spec DB.empty).1 hnone⟩

/-- Claim C5, counterexample to the claim as stated: inserting a vacancy
whose `company_id` is absent (`None`) into a store with no companies at
all succeeds and creates a row with a NULL `company_id` — the schema's
foreign key permits NULL, so "company_id is absent" is not a constraint
violation. -/
theorem insert_vacancy_null_company_ok :
    (DBManager.insert_vacancy DB.empty vinC5).map
      (fun db2 => db2.vacancies.map (fun v => v.company_id)) =
      Except.ok [none] := rfl

/-- Claim C5, amended.  A non-null `company_id` that identifies no
`companies` row makes `insert_vacancy` fail with a constraint violation
(when the mis-keyed dedup lookup does not skip first), and every
successful `insert_vacancy` preserves the invariant that each vacancy's
non-null `company_id` identifies an existing company; a NULL `company_id`
remains admissible. -/
theorem insert_vacancy_fk_invariant (db : DB) (vin : VacancyInput) :
    ((db.companies.any (fun c => sqlEqOptStr c.url vin.url)) = false →
      ∀ i : Nat, vin.company_id = some i →
        (∀ c ∈ db.companies, c.id ≠ i) →
        DBManager.insert_vacancy db vin =
          Except.error PersistenceError.constraintViolation) ∧
    (∀ db2 : DB, DBManager.insert_vacancy db vin = Except.ok db2 →
      (∀ v ∈ db.vacancies, ∀ i : Nat, v.company_id = some i →
        ∃ c ∈ db.companies, c.id = i) →
      ∀ v ∈ db2.vacancies, ∀ i : Nat, v.company_id = some i →
        ∃ c ∈ db2.companies, c.id = i) := by
  constructor
  · intro hskip i hci hno
    unfold DBManager.insert_vacancy
    rw [hci]
    simp only [hskip]
    have hfk : fkOk db (some i) = false := by
      simp only [fkOk, List.any_eq_false]
      intro c hc
      simp [hno c hc]
    simp [hfk]
  · intro db2 hok hinv v hv i hci
    unfold DBManager.insert_vacancy at hok
    by_cases hskip : db.companies.any (fun c => sqlEqOptStr c.url vin.url) = true
    · rw [if_pos hskip] at hok
      cases hok
      exact hinv v hv i hci
    · rw [if_neg hskip] at hok
      by_cases hfk : fkOk db vin.company_id = true
      · rw [if_pos hfk] at hok
        cases hok
        rcases List.mem_append.mp hv with hold | hnew
        · exact hinv v hold i hci
        · rcases List.mem_singleton.mp hnew with rfl
          simp only at hci
          rw [hci] at hfk
          simp only [fkOk, List.any_eq_true] at hfk
          rcases hfk with ⟨c, hc, hcid⟩
          exact ⟨c, hc, by simpa using hcid⟩
      · rw [if_neg hfk] at hok
        cases hok

/-- Claim C5, witness: inserting a vacancy referencing the dangling
company id 99 into a one-company store fails with a constraint
violation. -/
theorem insert_vacancy_fk_invariant_witness :
    (dbW5.companies.any (fun c => sqlEqOptStr c.url vinW5.url)) = false ∧
      DBManager.insert_vacancy dbW5 vinW5 =
        Except.error PersistenceError.constraintViolation :=
  ⟨by decide, (insert_vacancy_fk_invariant dbW5 vinW5).1 (by decide) 99 rfl (by decide)⟩

/-- Claim C6, amended.  The `try/except` of `insert_company` covers only
the statement body: the cursor acquisition precedes the `try` and the
`finally` commit follows the `except`, so with an unreachable store the
exception escapes — `insert_company` does fail with an error on a
connection failure.  A constraint violation inside the body, however, is
caught and logged, and the call returns successfully with the sentinel id
`None` and an unchanged store instead of raising. -/
theorem insert_company_error_paths (db : DB) (n : String)
    (u d : Option String) :
    DBManager.insert_company db (some PersistenceError.connectionError) n u d =
      (db, Except.error PersistenceError.connectionError) ∧
    DBManager.insert_company db (some PersistenceError.constraintViolation) n u d =
      (db, Except.ok none) :=
  ⟨rfl, rfl⟩

/-- Claim C6, counterexample to the claim as stated: a constraint
violation during `insert_company` does not surface as a raised error — the
call returns successfully with the sentinel `None`, so "fails with a
PersistenceError ... if the insert violates a constraint" is false at this
input. -/
theorem insert_company_error_sentinel :
    DBManager.insert_company DB.empty (some PersistenceError.constraintViolation)
        "Acme" (some "https://acme") none = (DB.empty, Except.ok none) ∧
      (DBManager.insert_company DB.empty (some PersistenceError.constraintViolation)
        "Acme" (some "https://acme") none).2 ≠
        Except.error PersistenceError.constraintViolation := by
  constructor
  · rfl
  · simp [DBManager.insert_company]

/-- Claim C8.  Deleting an existing company removes its `companies` row
and cascades to every vacancy referencing it: afterwards no company with
that id and no vacancy with that `company_id` remain, and the full
listing is built from exactly the surviving (other-company) vacancies. -/
theorem delete_company_cascade (db : DB) (cid : Nat)
    (h : db.companies.any (fun c => c.id == cid) = true) :
    (∀ c ∈ (DBManager.delete_company db cid).companies, c.id ≠ cid) ∧
    (∀ v ∈ (DBManager.delete_company db cid).vacancies, v.company_id ≠ some cid) ∧
    DBManager.get_all_vacancies (DBManager.delete_company db cid) =
      (db.vacancies.filter (fun v => v.company_id != some cid)).flatMap
        (DBManager.vacRowsFor (DBManager.delete_company db cid)) := by
  refine ⟨?_, ?_, ?_⟩
  · intro c hc
    rcases List.mem_filter.mp hc with ⟨_, hpc⟩
    simpa using hpc
  · intro v hv
    rcases List.mem_filter.mp hv with ⟨_, hpv⟩
    simp only [h, Bool.and_true, Bool.not_eq_true'] at hpv
    simpa using hpv
  · unfold DBManager.get_all_vacancies
    congr 1
    show (db.vacancies.filter _) = db.vacancies.filter _
    apply List.filter_congr
    intro v _
    simp [h, bne]

/-- Claim C8, witness: the cascade theorem applied to a two-company store
when deleting company 1. -/
theorem delete_company_cascade_witness :
    dbW8.companies.any (fun c => c.id == 1) = true ∧
      ((∀ c ∈ (DBManager.delete_company dbW8 1).companies, c.id ≠ 1) ∧
      (∀ v ∈ (DBManager.delete_company dbW8 1).vacancies, v.company_id ≠ some 1) ∧
      DBManager.get_all_vacancies (DBManager.delete_company dbW8 1) =
        (dbW8.vacancies.filter (fun v => v.company_id != some 1)).flatMap
          (DBManager.vacRowsFor (DBManager.delete_company dbW8 1))) :=
  ⟨by decide, delete_company_cascade dbW8 1 (by decide)⟩

/-- In a company list with pairwise distinct names, filtering by the name
of a member yields exactly that member. -/
theorem filter_name_singleton (l : List Company) (c : Company)
    (h : (l.map (fun c2 => c2.name)).Nodup) (hc : c ∈ l) :
    l.filter (fun c2 => c2.name == c.name) = [c] := by
  induction l with
  | nil => cases hc
  | cons x xs ih =>
    rw [List.map_cons, List.nodup_cons] at h
    rcases List.mem_cons.mp hc with rfl | hmem
    · rw [List.filter_cons_of_pos (by simp)]
      have hnil : xs.filter (fun c2 => c2.name == c.name) = [] := by
        rw [List.filter_eq_nil_iff]
        intro y hy hpy
        exact h.1 ((beq_iff_eq.mp hpy) ▸ List.mem_map_of_mem _ hy)
      rw [hnil]
    · have hx : ¬(x.name == c.name) := by
        intro he
        exact h.1 ((beq_iff_eq.mp he) ▸ List.mem_map_of_mem (fun c2 => c2.name) hmem)
      rw [List.filter_cons_of_neg (by simpa using hx)]
      exact ih h.2 hmem

/-- Claim C9, amended.  When company names are pairwise distinct (the
documented invariant), the counts query pairs every company's name with
the number of vacancies referencing it — companies with zero vacancies
included, with count 0 — and returns one row per company. -/
theorem get_companies_and_vacancies_count_per_name (db : DB)
    (h : (db.companies.map (fun c => c.name)).Nodup) :
    (∀ c ∈ db.companies,
      (c.name, db.vacancies.countP (fun v => v.company_id == some c.id)) ∈
        DBManager.get_companies_and_vacancies_count db) ∧
    (DBManager.get_companies_and_vacancies_count db).length =
      db.companies.length := by
  constructor
  · intro c hc
    unfold DBManager.get_companies_and_vacancies_count
    have hname : c.name ∈ (db.companies.map (fun c2 => c2.name)).dedup :=
      List.mem_dedup.mpr (List.mem_map_of_mem (fun c2 => c2.name) hc)
    have hmem : (c.name,
        ((db.companies.filter (fun c2 => c2.name == c.name)).map (fun c2 =>
          db.vacancies.countP (fun v => v.company_id == some c2.id))).sum) ∈
        (db.companies.map (fun c2 => c2.name)).dedup.map (fun n =>
          (n, ((db.companies.filter (fun c2 => c2.name == n)).map (fun c2 =>
            db.vacancies.countP (fun v => v.company_id == some c2.id))).sum)) :=
      List.mem_map_of_mem _ hname
    rw [filter_name_singleton db.companies c h hc] at hmem
    simpa using hmem
  · unfold DBManager.get_companies_and_vacancies_count
    rw [List.dedup_eq_self.mpr h]
    simp

/-- Claim C9, counterexample to the claim as stated: with two distinct
companies sharing a name, the `GROUP BY companies.name` merges them into
a single output row, so the zero-vacancy company is not paired with a
count of 0 and the result has fewer rows than there are companies. -/
theorem companies_count_merges_names :
    (⟨2, "Acme", none, none⟩ : Company) ∈ dbC9.companies ∧
      dbC9.vacancies.countP (fun v => v.company_id == some 2) = 0 ∧
      DBManager.get_companies_and_vacancies_count dbC9 = [("Acme", 1)] ∧
      ("Acme", 0) ∉ DBManager.get_companies_and_vacancies_count dbC9 ∧
      (DBManager.get_companies_and_vacancies_count dbC9).length <
        dbC9.companies.length := by decide

/-- Claim C9, witness: the per-name theorem applied to a store with two
distinctly named companies. -/
theorem get_companies_and_vacancies_count_per_name_witness :
    (dbW9.companies.map (fun c => c.name)).Nodup ∧
      ((∀ c ∈ dbW9.companies,
        (c.name, dbW9.vacancies.countP (fun v => v.company_id == some c.id)) ∈
          DBManager.get_companies_and_vacancies_count dbW9) ∧
      (DBManager.get_companies_and_vacancies_count dbW9).length =
        dbW9.companies.length) :=
  ⟨by decide, get_companies_and_vacancies_count_per_name dbW9 (by decide)⟩

/-- Claim C10.  At the saver interface `record_id` is tested for Python
truthiness, so passing 0 behaves exactly like passing no id: it deletes
ALL vacancies (respectively companies); only a non-zero id reaches the
single-row delete of the repository. -/
theorem saver_zero_id_deletes_all (db : DB) :
    DBSaver.delete_vacancy db (some 0) = DBManager.delete_all_vacancies db ∧
    DBSaver.delete_company db (some 0) = DBManager.delete_all_companies db ∧
    DBSaver.delete_vacancy db none = DBManager.delete_all_vacancies db ∧
    DBSaver.delete_company db none = DBManager.delete_all_companies db ∧
    (∀ n : Nat, n ≠ 0 →
      DBSaver.delete_vacancy db (some n) = DBManager.delete_vacancy db n) ∧
    (∀ n : Nat, n ≠ 0 →
      DBSaver.delete_company db (some n) = DBManager.delete_company db n) := by
  refine ⟨rfl, rfl, rfl, rfl, ?_, ?_⟩
  · intro n hn
    unfold DBSaver.delete_vacancy
    rw [if_pos (by simp [DBSaver.truthy, hn])]
    rfl
  · intro n hn
    unfold DBSaver.delete_company
    rw [if_pos (by simp [DBSaver.truthy, hn])]
    rfl

/-- Claim C10, witness: the truthiness theorem applied to a concrete
store, with 0 deleting everything and 5 deleting the single row. -/
theorem saver_zero_id_deletes_all_witness :
    DBSaver.delete_vacancy dbW10 (some 0) = DBManager.delete_all_vacancies dbW10 ∧
      DBSaver.delete_company dbW10 (some 0) = DBManager.delete_all_companies dbW10 ∧
      (5 ≠ 0 ∧
        DBSaver.delete_vacancy dbW10 (some 5) = DBManager.delete_vacancy dbW10 5 ∧
        DBSaver.delete_company dbW10 (some 5) = DBManager.delete_company dbW10 5) :=
  ⟨(saver_zero_id_deletes_all dbW10).1,
   (saver_zero_id_deletes_all dbW10).2.1,
   by decide,
   (saver_zero_id_deletes_all dbW10).2.2.2.2.1 5 (by decide),
   (saver_zero_id_deletes_all dbW10).2.2.2.2.2 5 (by decide)⟩
